import Mathlib

/-!
Shallow embedding of the nexus-cli registry client and its CLI-level
retention-deletion logic (Go sources: `internal/package/registry/registry.go`
and the CLI main file), together with proofs settling the frozen claims.

Modelling conventions:
* Each Go registry method performs exactly one HTTP exchange; the method body
  is embedded as a pure function of the outcome of that exchange.  The outcome
  is `Except GoError Resp`: the `.error` constructor stands for a
  request-construction or transport failure (the two `return ..., err` paths
  before the status check), and `Resp` carries the status code plus the decoded
  body (`Option`, where `none` models a JSON decode failure, after which the Go
  struct keeps its zero value because the `Decode` error is discarded).
* Go multi-value returns `(T, error)` are embedded as `T × Option GoError`.
* `int64` fields are embedded as `Int` (no claim depends on 64-bit overflow).
* Go `time.Time` is embedded as the `DateTime` record of parsed components and
  `time.Now()` as an explicit `now` parameter.
-/

/-- Typed form of the `error` values the Go code constructs with
`fmt.Errorf` (the format string determines the constructor). -/
inductive GoError where
  /-- a transport-level failure returned by `client.Do` -/
  | transport (msg : String)
  /-- a request-construction failure returned by `http.NewRequest` -/
  | badRequest (msg : String)
  /-- `fmt.Errorf("HTTP Code: %d", code)` -/
  | httpCode (code : Nat)
  /-- `fmt.Errorf("HTTP Code: %d, Failed to delete image by assetId: %s, %s:%s", ...)` -/
  | deleteFailed (code : Nat) (assetId image tag : String)
  /-- a `time.Parse` failure on the given header value -/
  | dateParse (value : String)
deriving DecidableEq

/-- Go struct `repositories` (catalog response body). -/
structure repositories where
  Images : List String
deriving DecidableEq

/-- Go struct `imageTags` (tags-list response body). -/
structure imageTags where
  Name : String
  Tags : List String
deriving DecidableEq

/-- Go struct `layerInfo`. -/
structure layerInfo where
  MediaType : String
  Size : Int
  Digest : String
deriving DecidableEq

/-- Go struct `ImageManifest` (docker registry manifest v2). -/
structure ImageManifest where
  SchemaVersion : Int
  MediaType : String
  Config : layerInfo
  Layers : List layerInfo
deriving DecidableEq

/-- Zero value of `layerInfo`. -/
def zeroLayerInfo : layerInfo :=
  { MediaType := "", Size := 0, Digest := "" }

/-- Zero value of `ImageManifest` (`var imageManifest ImageManifest`). -/
def zeroManifest : ImageManifest :=
  { SchemaVersion := 0, MediaType := "", Config := zeroLayerInfo, Layers := [] }

/-- Checksum record inside a search-result asset. -/
structure Checksum where
  Sha1 : String
  Sha256 : String
deriving DecidableEq

/-- One element of the `assets` array of a search-result item. -/
structure AssetInfo where
  DownloadURL : String
  Path : String
  ID : String
  Repository : String
  Format : String
  Checksum : Checksum
deriving DecidableEq

/-- One element of the `items` array of the search response.  The Go field
`Group` has type `interface` (arbitrary JSON); it is never read, embedded as
an optional string. -/
structure SearchItem where
  ID : String
  Repository : String
  Format : String
  Group : Option String
  Name : String
  Version : String
  Assets : List AssetInfo
deriving DecidableEq

/-- Go struct `SearchAssets` (search response body).  `ContinuationToken` is
an `interface` field, never read; embedded as an optional string. -/
structure SearchAssets where
  Items : List SearchItem
  ContinuationToken : Option String
deriving DecidableEq

/-- Zero value of `SearchAssets` (`var searchAsset SearchAssets`). -/
def zeroSearchAssets : SearchAssets :=
  { Items := [], ContinuationToken := none }

/-- HTTP exchange outcome for `ListImages`: status code and decoded catalog
body (`none` = decode failure, struct keeps its zero value). -/
structure CatalogResp where
  statusCode : Nat
  decoded : Option repositories
deriving DecidableEq

/-- HTTP exchange outcome for `ListTagsByImage`. -/
structure TagsResp where
  statusCode : Nat
  decoded : Option imageTags
deriving DecidableEq

/-- HTTP exchange outcome for `ImageManifest`. -/
structure ManifestResp where
  statusCode : Nat
  decoded : Option ImageManifest
deriving DecidableEq

/-- HTTP exchange outcome for `SearchAssets`. -/
structure SearchResp where
  statusCode : Nat
  decoded : Option SearchAssets
deriving DecidableEq

/-- HTTP exchange outcome for the header-reading methods
(`GetImageTagDate`): status code and response headers. -/
structure HeaderResp where
  statusCode : Nat
  headers : List (String × String)
deriving DecidableEq

/-- HTTP exchange outcome for `DeleteImageByTagByAssetId` (body unused). -/
structure DeleteResp where
  statusCode : Nat
deriving DecidableEq

/-- Go `resp.Header.Get(key)`: the header value, or the empty string when the
header is absent (header-name canonicalisation is immaterial here). -/
def headerGet (hs : List (String × String)) (key : String) : String :=
  (hs.lookup key).getD ""

/-- Registry method `ListImages`: on transport error return `(nil, err)`;
on status other than 200 return `(nil, HTTP-code error)`; on 200 decode the
catalog body, discarding any decode error (zero value stays), and return the
`Images` field with a nil error. -/
def Registry.ListImages (exchange : Except GoError CatalogResp) :
    List String × Option GoError :=
  match exchange with
  | .error e => ([], some e)
  | .ok resp =>
    if resp.statusCode ≠ 200 then ([], some (GoError.httpCode resp.statusCode))
    else ((resp.decoded.getD { Images := [] }).Images, none)

/-- Registry method `ListTagsByImage`: same contract as `ListImages`, over the
tags-list body. -/
def Registry.ListTagsByImage (exchange : Except GoError TagsResp) :
    List String × Option GoError :=
  match exchange with
  | .error e => ([], some e)
  | .ok resp =>
    if resp.statusCode ≠ 200 then ([], some (GoError.httpCode resp.statusCode))
    else ((resp.decoded.getD { Name := "", Tags := [] }).Tags, none)

/-- Return type of the manifest method. -/
abbrev ManifestRet := ImageManifest × Option GoError

/-- Registry method `ImageManifest`: on failure paths the zero-valued manifest
accompanies the error; on 200 the decode error is discarded. -/
def Registry.ImageManifest (exchange : Except GoError ManifestResp) : ManifestRet :=
  match exchange with
  | .error e => (zeroManifest, some e)
  | .ok resp =>
    if resp.statusCode ≠ 200 then (zeroManifest, some (GoError.httpCode resp.statusCode))
    else (resp.decoded.getD zeroManifest, none)

/-- Return type of the search method. -/
abbrev SearchRet := SearchAssets × Option GoError

/-- Registry method `SearchAssets`: same contract, over the search body. -/
def Registry.SearchAssets (exchange : Except GoError SearchResp) : SearchRet :=
  match exchange with
  | .error e => (zeroSearchAssets, some e)
  | .ok resp =>
    if resp.statusCode ≠ 200 then (zeroSearchAssets, some (GoError.httpCode resp.statusCode))
    else (resp.decoded.getD zeroSearchAssets, none)

/-- Registry method `DeleteImageByTagByAssetId`: DELETE of the asset; success
requires HTTP 202, any other status yields the annotated HTTP-code error. -/
def Registry.DeleteImageByTagByAssetId (assetId image tag : String)
    (exchange : Except GoError DeleteResp) : Option GoError :=
  match exchange with
  | .error e => some e
  | .ok resp =>
    if resp.statusCode ≠ 202 then
      some (GoError.deleteFailed resp.statusCode assetId image tag)
    else none

/-- Observable outcome of `DeleteImageByTag`. -/
inductive DeleteTagResult where
  /-- the search call failed; its error is returned -/
  | searchFailed (e : GoError)
  /-- `len(assets.Items) == 0`: prints "No assets found", returns nil -/
  | noAssetsFound
  /-- `assets.Items` is non-empty but `Items[0].Assets` is empty:
  `assets.Items[0].Assets[0]` indexes out of range (Go runtime panic) -/
  | panicked
  /-- a DELETE was issued for this asset id; the method prints the success
  message and returns nil whatever the DELETE call returned -/
  | deleteIssued (assetId : String)
deriving DecidableEq

/-- The `error` value `DeleteImageByTag` returns to its caller (undefined in
the `panicked` case, where no return happens; mapped to `none`). -/
def DeleteTagResult.returnedError : DeleteTagResult → Option GoError
  | .searchFailed e => some e
  | _ => none

/-- Whether the outcome issued a DELETE call. -/
def DeleteTagResult.isDeleteIssued : DeleteTagResult → Bool
  | .deleteIssued _ => true
  | _ => false

/-- Registry method `DeleteImageByTag`: takes the `(assets, err)` pair
produced by the embedded `SearchAssets` call, and the outcome function of the
inner `DeleteImageByTagByAssetId` call.  Faithful to the Go body: the inner
call's result is discarded (`let _ := ...`), and the method returns nil in
every non-search-failure case. -/
def Registry.DeleteImageByTag (search : SearchRet)
    (delById : String → Option GoError) : DeleteTagResult :=
  match search.2 with
  | some e => .searchFailed e
  | none =>
    match search.1.Items with
    | [] => .noAssetsFound
    | item :: _ =>
      match item.Assets with
      | [] => .panicked
      | a :: _ =>
        let _ := delById a.ID
        .deleteIssued a.ID

/-- Components of a parsed RFC-1123 date (the data Go's `time.Parse` extracts
from the layout `Mon, 02 Jan 2006 15:04:05 MST`). -/
structure DateTime where
  year : Nat
  month : Nat
  day : Nat
  hour : Nat
  minute : Nat
  second : Nat
  zone : String
deriving DecidableEq

/-- Base-10 value of a list of digit characters (empty list gives 0). -/
def digitsVal (ds : List Char) : Nat :=
  ds.foldl (fun acc c => 10 * acc + (c.toNat - 48)) 0

/-- Consume exactly `n` digit characters and return their value and the rest
of the input. -/
def parseFixedDigits (n : Nat) (cs : List Char) : Option (Nat × List Char) :=
  if (cs.take n).length = n ∧ (cs.take n).all Char.isDigit = true then
    some (digitsVal (cs.take n), cs.drop n)
  else none

/-- Consume the literal characters of `pat`. -/
def expectStr (pat : String) (cs : List Char) : Option (List Char) :=
  if cs.take pat.data.length = pat.data then some (cs.drop pat.data.length)
  else none

/-- Short day names accepted by the RFC-1123 layout. -/
def dayNames : List String := ["Mon", "Tue", "Wed", "Thu", "Fri", "Sat", "Sun"]

/-- Short month names of the RFC-1123 layout, in order. -/
def monthNames : List String :=
  ["Jan", "Feb", "Mar", "Apr", "May", "Jun", "Jul", "Aug", "Sep", "Oct", "Nov", "Dec"]

/-- Consume two digit characters whose value lies in `lo..hi`. -/
def parseTwoIn (lo hi : Nat) (cs : List Char) : Option (Nat × List Char) :=
  match parseFixedDigits 2 cs with
  | some p => if lo ≤ p.1 ∧ p.1 ≤ hi then some p else none
  | none => none

/-- Consume a short month name and return its 1-based month number. -/
def parseMonth (cs : List Char) : Option (Nat × List Char) :=
  match monthNames.findIdx? (fun m => m = String.mk (cs.take 3)) with
  | some idx => some (idx + 1, cs.drop 3)
  | none => none

/-- Consume a `HH:MM:SS` clock with Go's range checks. -/
def parseClock (cs : List Char) : Option (Nat × Nat × Nat × List Char) :=
  match parseTwoIn 0 23 cs with
  | none => none
  | some (h, cs1) =>
    match expectStr ":" cs1 with
    | none => none
    | some cs2 =>
      match parseTwoIn 0 59 cs2 with
      | none => none
      | some (mi, cs3) =>
        match expectStr ":" cs3 with
        | none => none
        | some cs4 =>
          match parseTwoIn 0 59 cs4 with
          | none => none
          | some (se, cs5) => some (h, mi, se, cs5)

/-- Accept an uppercase time-zone abbreviation filling the rest of the
input. -/
def parseZone (cs : List Char) : Option String :=
  if cs ≠ [] ∧ cs.all Char.isUpper = true ∧ cs.length ≤ 5 then some (String.mk cs)
  else none

/-- Embedding of Go `time.Parse(time.RFC1123, s)` for the layout
`Mon, 02 Jan 2006 15:04:05 MST`: a valid short day name, a two-digit day, a
short month name, a four-digit year, a `HH:MM:SS` clock, and an uppercase
time-zone abbreviation.  Component range checks follow Go's validation (day
of month 1..31, hour below 24, minute and second below 60); the empty string
and any string not of this shape fail. -/
def parseRFC1123 (s : String) : Option DateTime :=
  let cs0 := s.data
  if dayNames.contains (String.mk (cs0.take 3)) = true then
    match expectStr ", " (cs0.drop 3) with
    | none => none
    | some cs1 =>
      match parseTwoIn 1 31 cs1 with
      | none => none
      | some (day, cs2) =>
        match expectStr " " cs2 with
        | none => none
        | some cs3 =>
          match parseMonth cs3 with
          | none => none
          | some (month, cs4) =>
            match expectStr " " cs4 with
            | none => none
            | some cs5 =>
              match parseFixedDigits 4 cs5 with
              | none => none
              | some (year, cs6) =>
                match expectStr " " cs6 with
                | none => none
                | some cs7 =>
                  match parseClock cs7 with
                  | none => none
                  | some (hour, minute, second, cs8) =>
                    match expectStr " " cs8 with
                    | none => none
                    | some cs9 =>
                      match parseZone cs9 with
                      | none => none
                      | some z =>
                        some { year := year, month := month, day := day,
                               hour := hour, minute := minute,
                               second := second, zone := z }
  else none

/-- Registry method `GetImageTagDate`: `now` stands for `time.Now()`.  Every
failure path returns `(now, err)`; on 200 the `last-modified` header is parsed
with the RFC-1123 layout, a parse failure returning `(now, err)` as well. -/
def Registry.GetImageTagDate (now : DateTime)
    (exchange : Except GoError HeaderResp) : DateTime × Option GoError :=
  match exchange with
  | .error e => (now, some e)
  | .ok resp =>
    if resp.statusCode ≠ 200 then (now, some (GoError.httpCode resp.statusCode))
    else
      match parseRFC1123 (headerGet resp.headers "last-modified") with
      | some t => (t, none)
      | none => (now, some (GoError.dateParse (headerGet resp.headers "last-modified")))

/-- Base-10 digit characters of the first contiguous digit run of a character
list (empty when no digit occurs). -/
def firstDigitRun : List Char → List Char
  | [] => []
  | c :: cs => if c.isDigit then c :: cs.takeWhile (fun d => d.isDigit) else firstDigitRun cs

/-- Modelled from the spec: `extractNumberFromString` is defined in the
repository's sorter source file, which is not under `src/` (only its call
sites are).  Spec 4.2: scan the tag for the first contiguous run of digit
characters, parse it as a base-10 integer, and return 0 when no digit run
exists. -/
def extractNumberFromString (s : String) : Nat :=
  digitsVal (firstDigitRun s.data)

/-- Key order on tags: `extractNumber(a) ≤ extractNumber(b)`. -/
def tagLE (a b : String) : Prop :=
  extractNumberFromString a ≤ extractNumberFromString b

instance : DecidableRel tagLE := fun a b =>
  inferInstanceAs (Decidable (extractNumberFromString a ≤ extractNumberFromString b))

instance : IsTotal String tagLE :=
  ⟨fun a b => Nat.le_total (extractNumberFromString a) (extractNumberFromString b)⟩

instance : IsTrans String tagLE :=
  ⟨fun _ _ _ h1 h2 => Nat.le_trans h1 h2⟩

/-- Modelled from the spec: the generic sorter (`Compare(...).Sort`) lives in
the sorter source file, not under `src/`.  Spec 4.2 prescribes sorting by the
strict comparator `extractNumber(a) < extractNumber(b)` with no guarantee on
ties; modelled as insertion sort by the corresponding key order `tagLE`. -/
def sortTags (tags : List String) : List String :=
  List.insertionSort tagLE tags

/-- Result of the keep-count branch of the CLI `deleteImage` command. -/
structure KeepBatchResult where
  /-- tags passed to `DeleteImageByTag`, in call order -/
  attempted : List String
  /-- the error the branch returns to the CLI framework -/
  returned : Option GoError
  /-- argument of the `Only %d images are available` message, when printed -/
  reportedAvailable : Option Nat
deriving DecidableEq

/-- Embedding of the keep-count branch of the CLI `deleteImage` command
(reached when a name is given, no tag is given, `keep > 0`, and
`ListTagsByImage` succeeded with `tags`): sort the tags in place, and when
`len(tags) >= keep` call `DeleteImageByTag` on each of the first
`len(tags)-keep` sorted tags, discarding each call's result
(`r.DeleteImageByTag(imgName, tag)` with no assignment), then return nil;
otherwise print the available count and return nil.  `del` gives the outcome
of each `DeleteImageByTag` call. -/
def deleteImageKeep (tags : List String) (keep : Nat)
    (del : String → Option GoError) : KeepBatchResult :=
  let sorted := sortTags tags
  if keep ≤ sorted.length then
    let batch := sorted.take (sorted.length - keep)
    let attempted := batch.foldl (fun acc tag => let _ := del tag; acc ++ [tag]) []
    { attempted := attempted, returned := none, reportedAvailable := none }
  else
    { attempted := [], returned := none, reportedAvailable := some sorted.length }

/-- Go map assignment `m[k] = v` on an association-list model of
`map[string]int64`: replace the value when the key is present, append the
binding otherwise. -/
def mapAssign (m : List (String × Int)) (k : String) (v : Int) :
    List (String × Int) :=
  if m.any (fun p => p.1 == k) then m.map (fun p => if p.1 == k then (k, v) else p)
  else m ++ [(k, v)]

/-- Inner loop of `showTotalImageSize`: `sizeInfo[layer.Digest] = layer.Size`
for each layer of one manifest. -/
def layersAssign (m : List (String × Int)) (layers : List layerInfo) :
    List (String × Int) :=
  layers.foldl (fun acc l => mapAssign acc l.Digest l.Size) m

/-- Outer loop of `showTotalImageSize`: fold the per-tag manifests over an
initially empty `sizeInfo` map. -/
def sizeInfo (manifests : List ImageManifest) : List (String × Int) :=
  manifests.foldl (fun acc mf => layersAssign acc mf.Layers) []

/-- Embedding of the summing core of the CLI `showTotalImageSize` command,
given the manifests fetched for the image's tags: build the digest-keyed size
map and sum its values. -/
def showTotalImageSize (manifests : List ImageManifest) : Int :=
  (sizeInfo manifests).foldl (fun acc p => acc + p.2) 0

/-- Sample asset used in concrete instances. -/
def sampleAsset : AssetInfo :=
  { DownloadURL := "", Path := "", ID := "asset-1", Repository := "docker",
    Format := "docker", Checksum := { Sha1 := "", Sha256 := "" } }

/-- Sample search item holding one asset. -/
def itemWithAsset : SearchItem :=
  { ID := "item-1", Repository := "docker", Format := "docker", Group := none,
    Name := "img", Version := "v1", Assets := [sampleAsset] }

/-- Sample search item whose assets list is empty. -/
def itemNoAssets : SearchItem :=
  { ID := "item-2", Repository := "docker", Format := "docker", Group := none,
    Name := "img", Version := "v1", Assets := [] }

/-- Sample wall-clock instant standing for `time.Now()`. -/
def sampleNow : DateTime :=
  { year := 2024, month := 1, day := 1, hour := 0, minute := 0, second := 0,
    zone := "UTC" }

/-- The loop body of the keep-count branch appends each visited tag after
discarding the delete call's result. -/
theorem keepLoop_foldl (del : String → Option GoError) :
    ∀ (l acc : List String),
      l.foldl (fun acc tag => let _ := del tag; acc ++ [tag]) acc = acc ++ l := by
  intro l
  induction l with
  | nil => intro acc; simp
  | cons a l ih =>
    intro acc
    have step : List.foldl (fun acc tag => let _ := del tag; acc ++ [tag]) acc (a :: l)
        = List.foldl (fun acc tag => let _ := del tag; acc ++ [tag]) (acc ++ [a]) l := rfl
    rw [step, ih]
    simp

/-- A character list without digits has an empty first digit run. -/
theorem firstDigitRun_of_nodigit :
    ∀ l : List Char, (∀ c ∈ l, c.isDigit = false) → firstDigitRun l = [] := by
  intro l
  induction l with
  | nil => intro _; rfl
  | cons c cs ih =>
    intro h
    have hc : c.isDigit = false := h c (List.mem_cons_self c cs)
    simp only [firstDigitRun, hc, Bool.false_eq_true, if_false]
    exact ih fun d hd => h d (List.mem_cons_of_mem c hd)

/-- Taking the digit prefix of an all-digit list followed by a non-digit
boundary returns exactly the all-digit list. -/
theorem takeWhile_digits_append :
    ∀ (run rest : List Char), (∀ c ∈ run, c.isDigit = true) →
      (∀ c, rest.head? = some c → c.isDigit = false) →
      (run ++ rest).takeWhile (fun d => d.isDigit) = run := by
  intro run
  induction run with
  | nil =>
    intro rest _ hrest
    cases rest with
    | nil => rfl
    | cons r rs =>
      have hr : r.isDigit = false := hrest r rfl
      simp [List.takeWhile_cons, hr]
  | cons a run ih =>
    intro rest hrun hrest
    have ha : a.isDigit = true := hrun a (List.mem_cons_self a run)
    simp only [List.cons_append, List.takeWhile_cons, ha, if_true, List.cons.injEq, true_and]
    exact ih rest (fun c hc => hrun c (List.mem_cons_of_mem a hc)) hrest

/-- Characterisation of `firstDigitRun` on a decomposed input: a digit-free
prefix, a non-empty all-digit run, and a remainder not starting with a
digit. -/
theorem firstDigitRun_decomp :
    ∀ (pre run rest : List Char), (∀ c ∈ pre, c.isDigit = false) → run ≠ [] →
      (∀ c ∈ run, c.isDigit = true) →
      (∀ c, rest.head? = some c → c.isDigit = false) →
      firstDigitRun (pre ++ run ++ rest) = run := by
  intro pre
  induction pre with
  | nil =>
    intro run rest hpre hne hrun hrest
    cases run with
    | nil => exact absurd rfl hne
    | cons a run =>
      have ha : a.isDigit = true := hrun a (List.mem_cons_self a run)
      simp only [List.nil_append, List.cons_append, firstDigitRun, ha, if_true,
        List.cons.injEq, true_and]
      exact takeWhile_digits_append run rest
        (fun c hc => hrun c (List.mem_cons_of_mem a hc)) hrest
  | cons p pre ih =>
    intro run rest hpre hne hrun hrest
    have hp : p.isDigit = false := hpre p (List.mem_cons_self p pre)
    simp only [List.cons_append, firstDigitRun, hp, Bool.false_eq_true, if_false]
    exact ih run rest (fun c hc => hpre c (List.mem_cons_of_mem p hc)) hne hrun hrest

/-- Keys of the map after a Go map assignment: unchanged when the key was
present, extended by the key otherwise. -/
theorem mapAssign_keys (m : List (String × Int)) (k : String) (v : Int) :
    (mapAssign m k v).map Prod.fst
      = if m.any (fun p => p.1 == k) then m.map Prod.fst
        else m.map Prod.fst ++ [k] := by
  by_cases h : m.any (fun p => p.1 == k) = true
  · simp only [mapAssign, h, if_true, List.map_map]
    apply List.map_congr_left
    intro p _
    by_cases hpk : (p.1 == k) = true
    · simp only [Function.comp_apply, hpk, if_true]
      exact (beq_iff_eq.mp hpk).symm
    · have hpk2 : ¬ p.1 = k := fun hh => hpk (by simp [hh])
      simp [Function.comp_apply, hpk, hpk2]
  · simp [mapAssign, h]

/-- A Go map assignment preserves key uniqueness. -/
theorem mapAssign_keys_nodup {m : List (String × Int)} {k : String} {v : Int}
    (h : (m.map Prod.fst).Nodup) : ((mapAssign m k v).map Prod.fst).Nodup := by
  rw [mapAssign_keys]
  by_cases hany : m.any (fun p => p.1 == k) = true
  · simpa [hany] using h
  · have hk : k ∉ m.map Prod.fst := by
      intro hmem
      obtain ⟨p, hp, hpk⟩ := List.mem_map.mp hmem
      exact hany (List.any_eq_true.mpr ⟨p, hp, by simp [hpk]⟩)
    simp [hany, List.nodup_append, h, hk]

/-- Key membership after a Go map assignment. -/
theorem mem_mapAssign_keys (m : List (String × Int)) (k : String) (v : Int)
    (d : String) :
    d ∈ (mapAssign m k v).map Prod.fst ↔ d ∈ m.map Prod.fst ∨ d = k := by
  rw [mapAssign_keys]
  by_cases hany : m.any (fun p => p.1 == k) = true
  · simp only [hany, if_true]
    constructor
    · exact Or.inl
    · rintro (h | rfl)
      · exact h
      · obtain ⟨p, hp, hpk⟩ := List.any_eq_true.mp hany
        exact List.mem_map.mpr ⟨p, hp, beq_iff_eq.mp hpk⟩
    
  · simp [hany]

/-- Folding one manifest's layers into the size map preserves key
uniqueness. -/
theorem layersAssign_keys_nodup :
    ∀ (layers : List layerInfo) (m : List (String × Int)),
      (m.map Prod.fst).Nodup → ((layersAssign m layers).map Prod.fst).Nodup := by
  intro layers
  induction layers with
  | nil => intro m h; exact h
  | cons l ls ih =>
    intro m h
    exact ih (mapAssign m l.Digest l.Size) (mapAssign_keys_nodup h)

/-- Key membership after folding one manifest's layers into the size map. -/
theorem mem_layersAssign_keys :
    ∀ (layers : List layerInfo) (m : List (String × Int)) (d : String),
      d ∈ (layersAssign m layers).map Prod.fst ↔
        d ∈ m.map Prod.fst ∨ ∃ l ∈ layers, l.Digest = d := by
  intro layers
  induction layers with
  | nil => intro m d; simp [layersAssign]
  | cons l ls ih =>
    intro m d
    have hstep : layersAssign m (l :: ls) = layersAssign (mapAssign m l.Digest l.Size) ls := rfl
    rw [hstep, ih, mem_mapAssign_keys]
    constructor
    · rintro ((h | rfl) | ⟨l2, hl2, hd⟩)
      · exact Or.inl h
      · exact Or.inr ⟨l, List.mem_cons_self l ls, rfl⟩
      · exact Or.inr ⟨l2, List.mem_cons_of_mem l hl2, hd⟩
    · rintro (h | ⟨l2, hl2, hd⟩)
      · exact Or.inl (Or.inl h)
      · rcases List.mem_cons.mp hl2 with rfl | h2
        · exact Or.inl (Or.inr hd.symm)
        · exact Or.inr ⟨l2, h2, hd⟩

/-- Folding manifests into the size map preserves key uniqueness. -/
theorem manifestsFold_keys_nodup :
    ∀ (ms : List ImageManifest) (m : List (String × Int)),
      (m.map Prod.fst).Nodup →
      ((ms.foldl (fun acc mf => layersAssign acc mf.Layers) m).map Prod.fst).Nodup := by
  intro ms
  induction ms with
  | nil => intro m h; exact h
  | cons mf ms ih =>
    intro m h
    exact ih (layersAssign m mf.Layers) (layersAssign_keys_nodup mf.Layers m h)

/-- Key membership after folding manifests into the size map. -/
theorem mem_manifestsFold_keys :
    ∀ (ms : List ImageManifest) (m : List (String × Int)) (d : String),
      d ∈ (ms.foldl (fun acc mf => layersAssign acc mf.Layers) m).map Prod.fst ↔
        d ∈ m.map Prod.fst ∨ ∃ mf ∈ ms, ∃ l ∈ mf.Layers, l.Digest = d := by
  intro ms
  induction ms with
  | nil => intro m d; simp
  | cons mf ms ih =>
    intro m d
    have hstep : (mf :: ms).foldl (fun acc mf => layersAssign acc mf.Layers) m
        = ms.foldl (fun acc mf => layersAssign acc mf.Layers) (layersAssign m mf.Layers) := rfl
    rw [hstep, ih, mem_layersAssign_keys]
    constructor
    · rintro ((h | ⟨l, hl, hd⟩) | ⟨mf2, hmf2, l, hl, hd⟩)
      · exact Or.inl h
      · exact Or.inr ⟨mf, List.mem_cons_self mf ms, l, hl, hd⟩
      · exact Or.inr ⟨mf2, List.mem_cons_of_mem mf hmf2, l, hl, hd⟩
    · rintro (h | ⟨mf2, hmf2, l, hl, hd⟩)
      · exact Or.inl (Or.inl h)
      · rcases List.mem_cons.mp hmf2 with rfl | h2
        · exact Or.inl (Or.inr ⟨l, hl, hd⟩)
        · exact Or.inr ⟨mf2, h2, l, hl, hd⟩

/-- Summing the map values by a left fold equals the list sum of the
values. -/
theorem foldl_add_snd :
    ∀ (l : List (String × Int)) (acc : Int),
      l.foldl (fun a p => a + p.2) acc = acc + (l.map Prod.snd).sum := by
  intro l
  induction l with
  | nil => intro acc; simp
  | cons p ps ih =>
    intro acc
    simp only [List.foldl_cons, ih, List.map_cons, List.sum_cons]
    ring

/-- Folding with plain append collects the visited elements in order. -/
theorem foldl_append_singleton :
    ∀ (l acc : List String),
      l.foldl (fun acc tag => acc ++ [tag]) acc = acc ++ l := by
  intro l
  induction l with
  | nil => intro acc; simp
  | cons a l ih =>
    intro acc
    have step : List.foldl (fun acc tag => acc ++ [tag]) acc (a :: l)
        = List.foldl (fun acc tag => acc ++ [tag]) (acc ++ [a]) l := rfl
    rw [step, ih]
    simp

/-- C2: an HTTP 200 response whose JSON body fails to decode makes
`ListImages`, `ListTagsByImage` and `ImageManifest` return success (nil
error) with the zero-valued result (empty list, zero manifest) instead of
propagating a decode error. -/
theorem decode_failure_yields_zero_values :
    Registry.ListImages (.ok { statusCode := 200, decoded := none }) = ([], none)
    ∧ Registry.ListTagsByImage (.ok { statusCode := 200, decoded := none }) = ([], none)
    ∧ Registry.ImageManifest (.ok { statusCode := 200, decoded := none })
        = (zeroManifest, none) := by
  decide

/-- C4: every response with a status code other than 200 makes `ListImages`,
`ListTagsByImage` and `ImageManifest` fail with the HTTP-code error carrying
that status and return no data (nil list, zero-valued manifest), whatever the
body decoded to. -/
theorem non_200_yields_http_code_error :
    ∀ code : Nat, code ≠ 200 →
      (∀ d, Registry.ListImages (.ok { statusCode := code, decoded := d })
          = ([], some (GoError.httpCode code)))
      ∧ (∀ d, Registry.ListTagsByImage (.ok { statusCode := code, decoded := d })
          = ([], some (GoError.httpCode code)))
      ∧ (∀ d, Registry.ImageManifest (.ok { statusCode := code, decoded := d })
          = (zeroManifest, some (GoError.httpCode code))) := by
  intro code h
  refine ⟨fun d => ?_, fun d => ?_, fun d => ?_⟩ <;>
    simp [Registry.ListImages, Registry.ListTagsByImage, Registry.ImageManifest, h]

/-- Witness for C4 at status 404. -/
theorem non_200_yields_http_code_error_witness :
    Registry.ListImages (.ok { statusCode := 404, decoded := none })
        = ([], some (GoError.httpCode 404))
    ∧ Registry.ListTagsByImage (.ok { statusCode := 404, decoded := none })
        = ([], some (GoError.httpCode 404))
    ∧ Registry.ImageManifest (.ok { statusCode := 404, decoded := none })
        = (zeroManifest, some (GoError.httpCode 404)) := by
  have h := non_200_yields_http_code_error 404 (by decide)
  exact ⟨h.1 none, h.2.1 none, h.2.2 none⟩

/-- C3 counterexample: a successful search returning one item whose assets
list is empty makes `DeleteImageByTag` panic on the out-of-range index; it
does not take a first asset's id and issue a DELETE, contrary to the claim's
unconditional second half. -/
theorem deleteTag_one_item_no_assets_not_issued :
    Registry.DeleteImageByTag
        ({ Items := [itemNoAssets], ContinuationToken := none }, none)
        (fun _ => none) = DeleteTagResult.panicked
    ∧ (Registry.DeleteImageByTag
        ({ Items := [itemNoAssets], ContinuationToken := none }, none)
        (fun _ => none)).isDeleteIssued = false := by
  decide

/-- C3 (amended): with a successful search, zero items makes
`DeleteImageByTag` report the no-assets outcome and return success with no
DELETE issued; when at least one item exists and the first item's assets list
is non-empty, the DELETE is issued with the first item's first asset's id
(when that assets list is empty the index access panics instead, see the
counterexample). -/
theorem deleteTag_amended_behavior :
    ∀ (assets : SearchAssets) (delById : String → Option GoError),
      (assets.Items = [] →
        Registry.DeleteImageByTag (assets, none) delById = DeleteTagResult.noAssetsFound
        ∧ (Registry.DeleteImageByTag (assets, none) delById).returnedError = none)
      ∧ (∀ item rest a arest, assets.Items = item :: rest → item.Assets = a :: arest →
          Registry.DeleteImageByTag (assets, none) delById
            = DeleteTagResult.deleteIssued a.ID) := by
  intro assets delById
  constructor
  · intro h
    constructor
    · simp [Registry.DeleteImageByTag, h]
    · simp [Registry.DeleteImageByTag, h, DeleteTagResult.returnedError]
  · intro item rest a arest h1 h2
    simp [Registry.DeleteImageByTag, h1, h2]

/-- Witness for the amended C3: the no-op success on zero items and the
first-asset DELETE on a one-item result. -/
theorem deleteTag_amended_behavior_witness :
    Registry.DeleteImageByTag ({ Items := [], ContinuationToken := none }, none)
        (fun _ => none) = DeleteTagResult.noAssetsFound
    ∧ Registry.DeleteImageByTag
        ({ Items := [itemWithAsset], ContinuationToken := none }, none)
        (fun _ => none) = DeleteTagResult.deleteIssued "asset-1" := by
  constructor
  · exact ((deleteTag_amended_behavior { Items := [], ContinuationToken := none }
      (fun _ => none)).1 rfl).1
  · have h := (deleteTag_amended_behavior
        { Items := [itemWithAsset], ContinuationToken := none } (fun _ => none)).2
        itemWithAsset [] sampleAsset [] rfl rfl
    simpa [sampleAsset] using h

/-- C9: whenever the asset search succeeds with a non-empty items list whose
first item carries an empty assets list, `DeleteImageByTag` hits the
out-of-range index `Items[0].Assets[0]` (runtime panic): the guard checks
only that the items list is non-empty. -/
theorem deleteTag_empty_assets_panics :
    ∀ (assets : SearchAssets) (item : SearchItem) (rest : List SearchItem)
      (delById : String → Option GoError),
      assets.Items = item :: rest → item.Assets = [] →
      Registry.DeleteImageByTag (assets, none) delById = DeleteTagResult.panicked := by
  intro assets item rest delById h1 h2
  simp [Registry.DeleteImageByTag, h1, h2]

/-- Witness for C9 at a concrete one-item search result. -/
theorem deleteTag_empty_assets_panics_witness :
    Registry.DeleteImageByTag
        ({ Items := [itemNoAssets], ContinuationToken := none }, none)
        (fun _ => none) = DeleteTagResult.panicked :=
  deleteTag_empty_assets_panics { Items := [itemNoAssets], ContinuationToken := none }
    itemNoAssets [] (fun _ => none) rfl rfl

/-- C1: evidence that the code contradicts the claim: in the keep-count batch
over tags `v1,v2,v3` with `keep = 1`, the delete of `v1` failing does not
abort the batch (the loop still reaches `v2`) and the branch returns a nil
error; moreover `DeleteImageByTag` returns a nil error even when the
underlying asset DELETE failed, because the inner call's result is
discarded. -/
theorem deleteImage_keep_discards_delete_errors :
    deleteImageKeep ["v1", "v2", "v3"] 1
        (fun t => if t = "v1"
          then some (GoError.deleteFailed 500 "asset-1" "img" "v1") else none)
      = { attempted := ["v1", "v2"], returned := none, reportedAvailable := none }
    ∧ (Registry.DeleteImageByTag
          ({ Items := [itemWithAsset], ContinuationToken := none }, none)
          (fun _ => some (GoError.deleteFailed 500 "asset-1" "img" "v1"))).returnedError
        = none := by
  decide

/-- C5: the keep-count branch sorts the tags by extracted number (the spec's
sample sorts as stated) and, when `keep <= len(tags)`, calls the tag delete
on exactly the first `len(tags) - keep` tags of the sorted (ascending,
oldest-first) list; when `len(tags) < keep` no delete call happens and the
available count is reported; `keep >= len(tags)` always means zero delete
calls. -/
theorem retention_deletes_oldest_tags :
    (∀ (tags : List String) (keep : Nat) (del : String → Option GoError),
        (keep ≤ tags.length →
          (deleteImageKeep tags keep del).attempted
              = (sortTags tags).take (tags.length - keep)
          ∧ (deleteImageKeep tags keep del).reportedAvailable = none)
        ∧ (tags.length < keep →
          (deleteImageKeep tags keep del).attempted = []
          ∧ (deleteImageKeep tags keep del).reportedAvailable = some tags.length)
        ∧ (tags.length ≤ keep → (deleteImageKeep tags keep del).attempted = [])
        ∧ List.Sorted tagLE (sortTags tags)
        ∧ (sortTags tags).Perm tags)
    ∧ sortTags ["v10", "v2", "v1", "latest"] = ["latest", "v1", "v2", "v10"] := by
  constructor
  · intro tags keep del
    have hperm : (sortTags tags).Perm tags := List.perm_insertionSort tagLE tags
    have hlen : (sortTags tags).length = tags.length := hperm.length_eq
    refine ⟨?_, ?_, ?_, List.sorted_insertionSort tagLE tags, hperm⟩
    · intro hk
      constructor
      · simp [deleteImageKeep, hlen, hk, keepLoop_foldl, foldl_append_singleton]
      · simp [deleteImageKeep, hlen, hk]
    · intro hk
      have hk3 : ¬ keep ≤ tags.length := by omega
      exact ⟨by simp [deleteImageKeep, hlen, hk3],
             by simp [deleteImageKeep, hlen, hk3]⟩
    · intro hk
      by_cases hk2 : keep ≤ tags.length
      · have heq : tags.length - keep = 0 := by omega
        simp [deleteImageKeep, hlen, hk2, heq, keepLoop_foldl, foldl_append_singleton]
      · simp [deleteImageKeep, hlen, hk2]
  · decide

/-- Witness for C5: keep 2 of 4 tags deletes the two oldest in ascending
order, keep 5 of 4 deletes nothing. -/
theorem retention_deletes_oldest_tags_witness :
    (deleteImageKeep ["v10", "v2", "v1", "latest"] 2 (fun _ => none)).attempted
        = ["latest", "v1"]
    ∧ (deleteImageKeep ["v10", "v2", "v1", "latest"] 5 (fun _ => none)).attempted
        = [] := by
  constructor
  · have h := ((retention_deletes_oldest_tags.1 ["v10", "v2", "v1", "latest"] 2
        (fun _ => none)).1 (by decide)).1
    rw [h]
    decide
  · exact (retention_deletes_oldest_tags.1 ["v10", "v2", "v1", "latest"] 5
      (fun _ => none)).2.2.1 (by decide)

/-- C6: `extractNumberFromString` returns 0 on any string with no digit
character and the base-10 value of the first contiguous digit run otherwise,
with the spec's sample values. -/
theorem extractNumber_first_digit_run :
    (∀ s : String, (∀ c ∈ s.data, c.isDigit = false) → extractNumberFromString s = 0)
    ∧ (∀ (s : String) (pre run rest : List Char),
        s.data = pre ++ run ++ rest →
        (∀ c ∈ pre, c.isDigit = false) →
        run ≠ [] →
        (∀ c ∈ run, c.isDigit = true) →
        (∀ c, rest.head? = some c → c.isDigit = false) →
        extractNumberFromString s = digitsVal run)
    ∧ extractNumberFromString "release-104-build" = 104
    ∧ extractNumberFromString "latest" = 0
    ∧ extractNumberFromString "v2-rc1" = 2 := by
  refine ⟨?_, ?_, by decide, by decide, by decide⟩
  · intro s h
    unfold extractNumberFromString
    rw [firstDigitRun_of_nodigit s.data h]
    rfl
  · intro s pre run rest hs hpre hne hrun hrest
    unfold extractNumberFromString
    rw [hs, firstDigitRun_decomp pre run rest hpre hne hrun hrest]

/-- Witness for C6: the digit-run decomposition applied to the spec's sample
string, and the no-digit case at a concrete string. -/
theorem extractNumber_first_digit_run_witness :
    extractNumberFromString "release-104-build" = digitsVal ("104".data)
    ∧ extractNumberFromString "x" = 0 := by
  constructor
  · exact extractNumber_first_digit_run.2.1 "release-104-build" ("release-".data)
      ("104".data) ("-build".data) (by decide) (by decide) (by decide) (by decide)
      (by decide)
  · exact extractNumber_first_digit_run.1 "x" (by decide)

/-- C7: on an HTTP 200 response `GetImageTagDate` parses the `last-modified`
header with the RFC-1123 layout and returns the parsed timestamp; a missing
or malformed header makes it fail with the date-parse error; the spec's
sample header parses to the equivalent timestamp and the empty value fails. -/
theorem getImageTagDate_rfc1123 :
    (∀ (now : DateTime) (resp : HeaderResp), resp.statusCode = 200 →
        (∀ t, parseRFC1123 (headerGet resp.headers "last-modified") = some t →
            Registry.GetImageTagDate now (.ok resp) = (t, none))
        ∧ (parseRFC1123 (headerGet resp.headers "last-modified") = none →
            Registry.GetImageTagDate now (.ok resp)
              = (now, some (GoError.dateParse (headerGet resp.headers "last-modified"))))
        ∧ (resp.headers.lookup "last-modified" = none →
            (Registry.GetImageTagDate now (.ok resp)).2 = some (GoError.dateParse "")))
    ∧ parseRFC1123 "Tue, 15 Aug 2023 10:00:00 GMT"
        = some { year := 2023, month := 8, day := 15, hour := 10, minute := 0,
                 second := 0, zone := "GMT" }
    ∧ parseRFC1123 "" = none := by
  refine ⟨?_, by decide, by decide⟩
  intro now resp h200
  refine ⟨?_, ?_, ?_⟩
  · intro t ht
    simp [Registry.GetImageTagDate, h200, ht]
  · intro hn
    simp [Registry.GetImageTagDate, h200, hn]
  · intro hmiss
    have hempty : headerGet resp.headers "last-modified" = "" := by
      simp [headerGet, hmiss]
    have hzero : parseRFC1123 "" = none := by decide
    simp [Registry.GetImageTagDate, h200, hempty, hzero]

/-- Witness for C7: the sample header parses; a response with no headers
fails with the date-parse error on the empty value. -/
theorem getImageTagDate_rfc1123_witness :
    Registry.GetImageTagDate sampleNow
        (.ok { statusCode := 200,
               headers := [("last-modified", "Tue, 15 Aug 2023 10:00:00 GMT")] })
      = ({ year := 2023, month := 8, day := 15, hour := 10, minute := 0,
           second := 0, zone := "GMT" }, none)
    ∧ (Registry.GetImageTagDate sampleNow
        (.ok { statusCode := 200, headers := [] })).2
      = some (GoError.dateParse "") := by
  constructor
  · exact ((getImageTagDate_rfc1123.1 sampleNow _ rfl).1) _ (by decide)
  · exact (getImageTagDate_rfc1123.1 sampleNow _ rfl).2.2 rfl

/-- C10: on every failure path (request-construction or transport error,
non-200 status, date-parse failure) the timestamp `GetImageTagDate` returns
alongside the error is exactly the wall-clock `now`, not a zero or sentinel
value. -/
theorem getImageTagDate_error_returns_now :
    ∀ (now : DateTime) (exchange : Except GoError HeaderResp) (e : GoError),
      (Registry.GetImageTagDate now exchange).2 = some e →
      (Registry.GetImageTagDate now exchange).1 = now := by
  intro now exchange e h
  cases exchange with
  | error e2 => rfl
  | ok resp =>
    by_cases h200 : resp.statusCode = 200
    · cases hp : parseRFC1123 (headerGet resp.headers "last-modified") with
      | some t =>
        exfalso
        simp [Registry.GetImageTagDate, h200, hp] at h
      | none =>
        simp [Registry.GetImageTagDate, h200, hp]
    · simp [Registry.GetImageTagDate, h200]

/-- Witness for C10 at a 404 response. -/
theorem getImageTagDate_error_returns_now_witness :
    (Registry.GetImageTagDate sampleNow
        (.ok { statusCode := 404, headers := [] })).1 = sampleNow :=
  getImageTagDate_error_returns_now sampleNow
    (.ok { statusCode := 404, headers := [] }) (GoError.httpCode 404) (by decide)

/-- C8: the total-size computation counts each layer digest exactly once:
the size map's keys are unique and are exactly the digests occurring across
the manifests, the reported total is the sum of one size term per key, and in
the sample a digest shared by two manifests contributes a single term. -/
theorem totalImageSize_dedups_digests :
    (∀ manifests : List ImageManifest,
        ((sizeInfo manifests).map Prod.fst).Nodup
        ∧ (∀ d, d ∈ (sizeInfo manifests).map Prod.fst ↔
            ∃ mf ∈ manifests, ∃ l ∈ mf.Layers, l.Digest = d)
        ∧ showTotalImageSize manifests = ((sizeInfo manifests).map Prod.snd).sum)
    ∧ showTotalImageSize
        [{ SchemaVersion := 2, MediaType := "", Config := zeroLayerInfo,
           Layers := [{ MediaType := "", Size := 5, Digest := "sha256:aa" }] },
         { SchemaVersion := 2, MediaType := "", Config := zeroLayerInfo,
           Layers := [{ MediaType := "", Size := 5, Digest := "sha256:aa" },
                      { MediaType := "", Size := 7, Digest := "sha256:bb" }] }]
      = 12 := by
  constructor
  · intro manifests
    refine ⟨?_, ?_, ?_⟩
    · exact manifestsFold_keys_nodup manifests [] (by simp)
    · intro d
      have h := mem_manifestsFold_keys manifests [] d
      simpa using h
    · simpa [showTotalImageSize] using foldl_add_snd (sizeInfo manifests) 0
  · decide
